import Mathlib

/-!
Formal model of the Library Management System (`src/app.py`).

Modelling conventions:
* Python `float` values (ratings, scores) are modelled as exact rationals `ℚ`.
* Timestamps produced by `datetime.now().isoformat()` are opaque strings supplied
  as explicit arguments to the operations that record them.
* Python dictionaries used as total maps with a default (`defaultdict`) are
  modelled as Lean functions out of `String`.
* `str.lower()` is modelled with `Char.toLower` (the searches in the claims are
  over ASCII data, where the two coincide).
* In `generate_recommendations` the source sorts a list of `(score, book)`
  tuples; when two scores are equal Python falls back to comparing the bare
  `Book` objects, which do not support `<`, and raises `TypeError`.  The model
  therefore returns `Option (List Book)`: `none` exactly when two kept
  candidates have equal scores.
-/

/-- One entry of a book's borrow history, the Python dict
`{'user_id': ..., 'borrow_date': ..., 'return_date': ...}` appended by
`Book.borrow`; `return_date` is `None` until the book is returned. -/
structure BorrowEntry where
  user_id : String
  borrow_date : String
  return_date : Option String
deriving DecidableEq

/-- State of a `Book` object (`Book.__init__`, src/app.py lines 9-17).
Ratings are exact rationals standing for the Python floats. -/
structure Book where
  title : String
  author : String
  genre : String
  book_id : String
  is_borrowed : Bool
  borrow_history : List BorrowEntry
  rating : ℚ
  num_ratings : ℕ
deriving DecidableEq

/-- The `Book` constructor: fresh book, not borrowed, empty history, unrated. -/
def mkBook (title author genre book_id : String) : Book :=
  { title := title, author := author, genre := genre, book_id := book_id,
    is_borrowed := false, borrow_history := [], rating := 0, num_ratings := 0 }

/-- `Book.add_rating` (lines 24-28): if `1 <= rating <= 5`, update the running
mean and bump the count, otherwise do nothing (no error is raised). -/
def Book.add_rating (b : Book) (rating : ℚ) : Book :=
  if 1 ≤ rating ∧ rating ≤ 5 then
    { b with rating := (b.rating * b.num_ratings + rating) / (b.num_ratings + 1),
             num_ratings := b.num_ratings + 1 }
  else b

/-- `Book.borrow` (lines 30-40): if not borrowed, mark borrowed, append an open
history entry stamped `ts`, and report `true`; otherwise report `false` with no
change. -/
def Book.borrow (b : Book) (user_id ts : String) : Book × Bool :=
  if !b.is_borrowed then
    ({ b with is_borrowed := true,
              borrow_history :=
                b.borrow_history ++ [⟨user_id, ts, none⟩] }, true)
  else (b, false)

/-- Helper for `Book.return_book`: set `return_date` of the last entry
(`borrow_history[-1]['return_date'] = ...`); identity on the empty list, which
the source guards with `if self.borrow_history:`. -/
def closeLast : List BorrowEntry → String → List BorrowEntry
  | [], _ => []
  | [e], ts => [{ e with return_date := some ts }]
  | e :: rest, ts => e :: closeLast rest ts

/-- `Book.return_book` (lines 42-49): if borrowed, clear the flag, stamp the
last history entry with `ts`, and report `true`; otherwise report `false` with
no change. -/
def Book.return_book (b : Book) (ts : String) : Book × Bool :=
  if b.is_borrowed then
    ({ b with is_borrowed := false,
              borrow_history := closeLast b.borrow_history ts }, true)
  else (b, false)

/-- The dictionary produced by `Book.to_dict` and consumed by `Book.from_dict`
(lines 51-72).  `rating` and `num_ratings` are optional because `from_dict`
reads them with `data.get(..., default)`; the other keys are accessed directly. -/
structure BookDict where
  title : String
  author : String
  genre : String
  book_id : String
  is_borrowed : Bool
  borrow_history : List BorrowEntry
  rating : Option ℚ
  num_ratings : Option ℕ
deriving DecidableEq

/-- `Book.to_dict` (lines 51-62): every attribute is written out. -/
def Book.to_dict (b : Book) : BookDict :=
  { title := b.title, author := b.author, genre := b.genre,
    book_id := b.book_id, is_borrowed := b.is_borrowed,
    borrow_history := b.borrow_history,
    rating := some b.rating, num_ratings := some b.num_ratings }

/-- `Book.from_dict` (lines 64-72): rebuild the book, defaulting `rating` to
`0.0` and `num_ratings` to `0` when the keys are absent. -/
def Book.from_dict (d : BookDict) : Book :=
  { title := d.title, author := d.author, genre := d.genre,
    book_id := d.book_id, is_borrowed := d.is_borrowed,
    borrow_history := d.borrow_history,
    rating := d.rating.getD 0, num_ratings := d.num_ratings.getD 0 }

/-- Outcome reported by `Library.add_book` through its `print` calls. -/
inductive AddResult where
  | ok
  | validationError
  | duplicateIdError
deriving DecidableEq

namespace Library

/-- `Library.add_book` (lines 79-91).  `not all([title, author, genre,
book_id])` is the emptiness test on the four strings; a failed check raises
`ValueError`, which is caught and reported, leaving the list untouched.  The
in-memory book list plus the reported outcome model the method (the
`save_books` file write is outside the in-memory state). -/
def add_book (books : List Book) (title author genre book_id : String) :
    List Book × AddResult :=
  if title = "" ∨ author = "" ∨ genre = "" ∨ book_id = "" then
    (books, .validationError)
  else if books.any (fun b => b.book_id == book_id) then
    (books, .duplicateIdError)
  else
    (books ++ [mkBook title author genre book_id], .ok)

/-- The lookup `next((b for b in library.books if b.book_id == book_id), None)`
used by the borrow / return / rate menu branches (lines 278, 290, 308). -/
def find_book (books : List Book) (book_id : String) : Option Book :=
  books.find? (fun b => b.book_id == book_id)

/-- Mutation of the book found by `find_book`: the first book whose id matches
is replaced by `f` of it, everything else is untouched. -/
def updateFirstBook (f : Book → Book) (book_id : String) :
    List Book → List Book
  | [] => []
  | b :: rest =>
    if b.book_id == book_id then f b :: rest
    else b :: updateFirstBook f book_id rest

/-- Lower-casing of a Python string, as a character list. -/
def lowerChars (s : String) : List Char :=
  s.data.map Char.toLower

/-- Prefix test on character lists (needle first). -/
def prefixOfChars : List Char → List Char → Bool
  | [], _ => true
  | _ :: _, [] => false
  | a :: as, b :: bs => a == b && prefixOfChars as bs

/-- Python's substring operator `needle in hay`: `needle` occurs contiguously
in `hay` (the empty needle always occurs). -/
def containsSubstr (hay needle : List Char) : Bool :=
  match hay with
  | [] => needle.isEmpty
  | _ :: t => prefixOfChars needle hay || containsSubstr t needle

/-- Predicate selected by `search_type` in `Library.search_books` (lines
96-106): any `search_type` other than the three named fields falls through to
the all-fields branch. -/
def matchBook (term : List Char) (search_type : String) (b : Book) : Bool :=
  if search_type = "title" then containsSubstr (lowerChars b.title) term
  else if search_type = "author" then containsSubstr (lowerChars b.author) term
  else if search_type = "genre" then containsSubstr (lowerChars b.genre) term
  else
    containsSubstr (lowerChars b.title) term ||
    containsSubstr (lowerChars b.author) term ||
    containsSubstr (lowerChars b.genre) term

/-- Sort key of `search_books`: Python's `key=lambda x: (-x.rating, x.title)`
compared lexicographically. -/
def searchKey (b : Book) : Lex (ℚ × String) :=
  toLex (-b.rating, b.title)

/-- Comparison used by the final `sorted` of `search_books`; `sorted` is stable
for equal keys. -/
def searchRel (x y : Book) : Prop :=
  searchKey x ≤ searchKey y

instance : DecidableRel searchRel := fun x y =>
  inferInstanceAs (Decidable (searchKey x ≤ searchKey y))

/-- `Library.search_books` (lines 93-107): lower-case the term, filter by the
selected field, sort by descending rating then ascending title. -/
def search_books (books : List Book) (search_term search_type : String) :
    List Book :=
  List.insertionSort searchRel
    (books.filter (matchBook (lowerChars search_term) search_type))

/-- Count, over the whole catalog, of borrow-history entries of `user_id`
inside books of genre `g`: the `user_genres` defaultdict of
`generate_recommendations` (lines 111-119) read at key `g`. -/
def userGenreCount (books : List Book) (user_id g : String) : ℕ :=
  ((books.filter (fun b => b.genre = g)).map
    (fun b => (b.borrow_history.filter (fun e => e.user_id = user_id)).length)).sum

/-- The `user_authors` defaultdict read at key `a`. -/
def userAuthorCount (books : List Book) (user_id a : String) : ℕ :=
  ((books.filter (fun b => b.author = a)).map
    (fun b => (b.borrow_history.filter (fun e => e.user_id = user_id)).length)).sum

/-- Score assigned to a candidate book (lines 125-127):
`user_genres[genre]*2 + user_authors[author]*3 + rating`. -/
def recScore (books : List Book) (user_id : String) (b : Book) : ℚ :=
  (userGenreCount books user_id b.genre * 2
    + userAuthorCount books user_id b.author * 3 : ℕ) + b.rating

/-- Books appended to `recommendations` (lines 122-129): unborrowed and of
positive score, in catalog order.  The source's `book not in recommendations`
test compares a `Book` against `(score, book)` tuples and is always true, so it
filters nothing. -/
def recCandidates (books : List Book) (user_id : String) : List Book :=
  books.filter (fun b => !b.is_borrowed && decide (0 < recScore books user_id b))

/-- `Library.generate_recommendations` (lines 109-132).  The final
`sorted(recommendations, reverse=True)[:5]` orders `(score, book)` tuples; when
all scores are distinct the tuple comparison never reaches the second
component and the call returns the candidates by descending score.  When two
candidates have equal scores Python compares the `Book` objects themselves,
which have no ordering, and the call raises `TypeError`: modelled as `none`. -/
def generate_recommendations (books : List Book) (user_id : String) :
    Option (List Book) :=
  let cands := recCandidates books user_id
  if cands.Pairwise (fun a b => recScore books user_id a ≠ recScore books user_id b) then
    some ((List.insertionSort
      (fun a b => recScore books user_id b ≤ recScore books user_id a) cands).take 5)
  else none

/-- The four defaultdicts built by `Library.generate_statistics` (lines
134-150), modelled as total maps with the defaultdict defaults. -/
structure Stats where
  genres : String → ℕ
  authors : String → ℕ
  ratings : String → List ℚ
  borrow_frequency : String → ℕ

/-- Body of the statistics loop for one book. -/
def statsStep (s : Stats) (b : Book) : Stats where
  genres := fun g => if g = b.genre then s.genres g + 1 else s.genres g
  authors := fun a => if a = b.author then s.authors a + 1 else s.authors a
  ratings := fun g =>
    if g = b.genre ∧ 0 < b.num_ratings then s.ratings g ++ [b.rating]
    else s.ratings g
  borrow_frequency := fun t =>
    if t = b.title then b.borrow_history.length else s.borrow_frequency t

/-- Empty statistics: the defaults of the four defaultdicts. -/
def emptyStats : Stats :=
  { genres := fun _ => 0, authors := fun _ => 0,
    ratings := fun _ => [], borrow_frequency := fun _ => 0 }

/-- `Library.generate_statistics` (lines 134-150): one pass over the books. -/
def generate_statistics (books : List Book) : Stats :=
  books.foldl statsStep emptyStats

/-- States of the in-memory book list reachable from the empty library by the
core operations, each applied the way the menu loop applies it: `add_book`
directly, and borrow / return / rate through `find_book` on an id. -/
inductive Reachable : List Book → Prop where
  | empty : Reachable []
  | add (books : List Book) (t a g i : String) :
      Reachable books → Reachable (add_book books t a g i).1
  | borrow (books : List Book) (i uid ts : String) :
      Reachable books →
      Reachable (updateFirstBook (fun b => (Book.borrow b uid ts).1) i books)
  | ret (books : List Book) (i ts : String) :
      Reachable books →
      Reachable (updateFirstBook (fun b => (Book.return_book b ts).1) i books)
  | rate (books : List Book) (i : String) (v : ℚ) :
      Reachable books →
      Reachable (updateFirstBook (fun b => Book.add_rating b v) i books)

/-- A book rated only through `add_rating` starting unrated: either still
unrated with average `0`, or positively rated with average in `[1,5]`. -/
def ratingStateOk (b : Book) : Prop :=
  (b.num_ratings = 0 ∧ b.rating = 0) ∨
  (0 < b.num_ratings ∧ 1 ≤ b.rating ∧ b.rating ≤ 5)

/-- A sequence of `add_rating` calls on a book, in order. -/
def applyRatings (b : Book) (vs : List ℚ) : Book :=
  vs.foldl Book.add_rating b

/-- The invariant relating the last history entry to the borrowed flag: the
last entry is open exactly when the book is currently borrowed. -/
def lastEntryOpenIff (b : Book) : Prop :=
  ∀ e, b.borrow_history.getLast? = some e →
    (e.return_date = none ↔ b.is_borrowed = true)

/-- History invariant maintained by borrow / return: every entry before the
last one is closed, the last entry is open iff the book is borrowed, and a
book with no history is not borrowed. -/
def histAux (b : Book) : Prop :=
  (∀ e ∈ b.borrow_history.dropLast, e.return_date ≠ none) ∧
  lastEntryOpenIff b ∧
  (b.borrow_history = [] → b.is_borrowed = false)

/-- Per-book inductive invariant. -/
def BookAux (b : Book) : Prop :=
  ratingStateOk b ∧ histAux b

/-- Whole-library inductive invariant: unique ids and every book invariant. -/
def StoreAux (books : List Book) : Prop :=
  (books.map Book.book_id).Nodup ∧ ∀ b ∈ books, BookAux b

end Library

/-! ### Helper lemmas -/

/-- Structure of `closeLast` on a nonempty history: the front is kept, the last
entry gets `return_date := some ts`. -/
theorem closeLast_eq (ts : String) :
    ∀ (l : List BorrowEntry) (e : BorrowEntry), l.getLast? = some e →
      closeLast l ts = l.dropLast ++ [{ e with return_date := some ts }]
  | [], e, h => by simp at h
  | [x], e, h => by
    simp only [List.getLast?_singleton, Option.some.injEq] at h
    subst h
    rfl
  | x :: y :: rest, e, h => by
    rw [List.getLast?_cons_cons] at h
    have ih := closeLast_eq ts (y :: rest) e h
    simp only [closeLast, List.dropLast_cons₂, List.cons_append, ih]

/-- The last entry of `closeLast` is the old last entry, closed with `ts`. -/
theorem closeLast_getLast? (l : List BorrowEntry) (ts : String) (e : BorrowEntry)
    (h : l.getLast? = some e) :
    (closeLast l ts).getLast? = some { e with return_date := some ts } := by
  rw [closeLast_eq ts l e h]
  simp

/-! ### Claim theorems -/

/-- Claim C3: `add_rating(value)` with `value ∈ [1,5]` replaces the average by
`(oldAvg*count + value)/(count+1)` and increments the count; outside `[1,5]` it
changes nothing (and raises no error).  On a fresh book, rating `3` gives
average exactly `3` with count `1`, and a subsequent rating `5` gives average
`4` with count `2`. -/
theorem C3_add_rating (b : Book) (v : ℚ) (t a g i : String) :
    (1 ≤ v ∧ v ≤ 5 →
      b.add_rating v
        = { b with
            rating := (b.rating * b.num_ratings + v) / (b.num_ratings + 1),
            num_ratings := b.num_ratings + 1 }) ∧
    (¬(1 ≤ v ∧ v ≤ 5) → b.add_rating v = b) ∧
    ((mkBook t a g i).add_rating 3).rating = 3 ∧
    ((mkBook t a g i).add_rating 3).num_ratings = 1 ∧
    (((mkBook t a g i).add_rating 3).add_rating 5).rating = 4 ∧
    (((mkBook t a g i).add_rating 3).add_rating 5).num_ratings = 2 := by
  refine ⟨fun h => ?_, fun h => ?_, ?_, ?_, ?_, ?_⟩
  · rw [Book.add_rating, if_pos h]
  · rw [Book.add_rating, if_neg h]
  all_goals norm_num [Book.add_rating, mkBook]

/-- Witness for C3 at a fresh book: rating `3` is accepted (count becomes 1)
and rating `6` is rejected unchanged. -/
theorem C3_add_rating_witness :
    ((1:ℚ) ≤ 3 ∧ (3:ℚ) ≤ 5) ∧
    ¬((1:ℚ) ≤ 6 ∧ (6:ℚ) ≤ 5) ∧
    (mkBook "x" "y" "z" "w").add_rating 3
      = { mkBook "x" "y" "z" "w" with
          rating := ((mkBook "x" "y" "z" "w").rating
              * (mkBook "x" "y" "z" "w").num_ratings + 3)
            / ((mkBook "x" "y" "z" "w").num_ratings + 1),
          num_ratings := (mkBook "x" "y" "z" "w").num_ratings + 1 } ∧
    (mkBook "x" "y" "z" "w").add_rating 6 = mkBook "x" "y" "z" "w" :=
  ⟨by norm_num, by norm_num,
   (C3_add_rating (mkBook "x" "y" "z" "w") 3 "x" "y" "z" "w").1 (by norm_num),
   (C3_add_rating (mkBook "x" "y" "z" "w") 6 "x" "y" "z" "w").2.1 (by norm_num)⟩

/-- Claim C4: `borrow` fails without change on a borrowed book and otherwise
marks the book borrowed, appends an open history entry for the borrower, and
succeeds; `return` fails without change on an unborrowed book and otherwise
clears the flag, closes the last history entry, and succeeds; a second
consecutive `return` is a no-op reporting `false`. -/
theorem C4_borrow_return (b : Book) (uid ts ts1 ts2 : String) :
    (b.is_borrowed = true → b.borrow uid ts = (b, false)) ∧
    (b.is_borrowed = false →
      b.borrow uid ts
        = ({ b with is_borrowed := true,
                    borrow_history := b.borrow_history ++ [⟨uid, ts, none⟩] },
           true)) ∧
    (b.is_borrowed = false → b.return_book ts = (b, false)) ∧
    (b.is_borrowed = true →
      b.return_book ts
        = ({ b with is_borrowed := false,
                    borrow_history := closeLast b.borrow_history ts }, true)) ∧
    (b.is_borrowed = true → ∀ e, b.borrow_history.getLast? = some e →
      ((b.return_book ts).1.borrow_history.getLast?
          = some { e with return_date := some ts })) ∧
    ((b.return_book ts1).1.return_book ts2 = ((b.return_book ts1).1, false)) := by
  refine ⟨fun h => ?_, fun h => ?_, fun h => ?_, fun h => ?_, fun h e he => ?_, ?_⟩
  · rw [Book.borrow]; simp [h]
  · rw [Book.borrow]; simp [h]
  · rw [Book.return_book, if_neg (by simp [h])]
  · rw [Book.return_book, if_pos h]
  · rw [Book.return_book, if_pos h]
    exact closeLast_getLast? _ ts e he
  · have hnb : ((b.return_book ts1).1).is_borrowed = false := by
      rw [Book.return_book]
      by_cases h : b.is_borrowed <;> simp [h]
    rw [Book.return_book, if_neg (by simp [hnb])]

/-- Witness for C4 on a concrete book: borrow a fresh book, return it, and
observe the closed last entry and the failing second return. -/
theorem C4_borrow_return_witness :
    ((mkBook "T" "A" "G" "1").is_borrowed = false ∧
      (mkBook "T" "A" "G" "1").borrow "u1" "d1"
        = ({ mkBook "T" "A" "G" "1" with
             is_borrowed := true,
             borrow_history := (mkBook "T" "A" "G" "1").borrow_history
               ++ [⟨"u1", "d1", none⟩] }, true)) ∧
    (((mkBook "T" "A" "G" "1").borrow "u1" "d1").1.is_borrowed = true ∧
      ((((mkBook "T" "A" "G" "1").borrow "u1" "d1").1.return_book "d2").1.borrow_history.getLast?
        = some ⟨"u1", "d1", some "d2"⟩)) :=
  ⟨⟨rfl, (C4_borrow_return (mkBook "T" "A" "G" "1") "u1" "d1" "d1" "d2").2.1 rfl⟩,
   ⟨rfl, (C4_borrow_return ((mkBook "T" "A" "G" "1").borrow "u1" "d1").1 "u1" "d2" "d1" "d2").2.2.2.2.1
      rfl ⟨"u1", "d1", none⟩ rfl⟩⟩

namespace Library

/-- When a predicate finds nothing in the front list, `find?` over an append
looks only at the back list. -/
theorem find?_append_of_none {α : Type} {p : α → Bool} :
    ∀ {l1 : List α} (l2 : List α), l1.find? p = none →
      (l1 ++ l2).find? p = l2.find? p
  | [], l2, _ => rfl
  | x :: rest, l2, h => by
    rcases hx : p x with _ | _
    · rw [List.cons_append, List.find?_cons_of_neg _ (by simp [hx])]
      rw [List.find?_cons_of_neg _ (by simp [hx])] at h
      exact find?_append_of_none l2 h
    · rw [List.find?_cons_of_pos _ hx] at h
      exact absurd h (by simp)

/-- Claim C5: `add_book` with an empty field reports a validation error and
leaves the list unchanged; with a duplicate id it reports a duplicate-id error
and the size is unchanged; otherwise it appends exactly one fresh record with
the given fields, and `find_book` on the new id returns that record, not
borrowed. -/
theorem C5_add_book (books : List Book) (t a g i : String) :
    ((t = "" ∨ a = "" ∨ g = "" ∨ i = "") →
      add_book books t a g i = (books, AddResult.validationError)) ∧
    (¬(t = "" ∨ a = "" ∨ g = "" ∨ i = "") →
      books.any (fun b => b.book_id == i) = true →
      add_book books t a g i = (books, AddResult.duplicateIdError) ∧
      (add_book books t a g i).1.length = books.length) ∧
    (¬(t = "" ∨ a = "" ∨ g = "" ∨ i = "") →
      books.any (fun b => b.book_id == i) = false →
      add_book books t a g i = (books ++ [mkBook t a g i], AddResult.ok) ∧
      ∃ nb, find_book (add_book books t a g i).1 i = some nb ∧
        nb.title = t ∧ nb.author = a ∧ nb.genre = g ∧ nb.book_id = i ∧
        nb.is_borrowed = false ∧ nb.borrow_history = [] ∧
        nb.rating = 0 ∧ nb.num_ratings = 0) := by
  refine ⟨fun h => ?_, fun h hd => ?_, fun h hd => ?_⟩
  · rw [add_book, if_pos h]
  · rw [add_book, if_neg h, if_pos hd]
    exact ⟨rfl, rfl⟩
  · have heq : add_book books t a g i = (books ++ [mkBook t a g i], AddResult.ok) := by
      rw [add_book, if_neg h, if_neg (by simp [hd])]
    refine ⟨heq, mkBook t a g i, ?_, rfl, rfl, rfl, rfl, rfl, rfl, rfl, rfl⟩
    rw [heq]
    have hnone : books.find? (fun b => b.book_id == i) = none := by
      rw [List.find?_eq_none]
      intro b hb
      simpa using List.any_eq_false.mp hd b hb
    rw [find_book, find?_append_of_none _ hnone]
    rw [List.find?_cons_of_pos _ (by simp [mkBook])]

/-- Witness for C5: an empty-title add, a duplicate-id add, and a successful
add followed by `find_book`, on a one-book store. -/
theorem C5_add_book_witness :
    (("" : String) = "" ∨ ("A" : String) = "" ∨ ("G" : String) = "" ∨ ("1" : String) = "") ∧
    add_book [mkBook "B" "C" "D" "2"] "" "A" "G" "1"
      = ([mkBook "B" "C" "D" "2"], AddResult.validationError) ∧
    add_book [mkBook "B" "C" "D" "2"] "T" "A" "G" "2"
      = ([mkBook "B" "C" "D" "2"], AddResult.duplicateIdError) ∧
    add_book [mkBook "B" "C" "D" "2"] "T" "A" "G" "1"
      = ([mkBook "B" "C" "D" "2", mkBook "T" "A" "G" "1"], AddResult.ok) ∧
    ∃ nb, find_book (add_book [mkBook "B" "C" "D" "2"] "T" "A" "G" "1").1 "1" = some nb ∧
      nb.title = "T" ∧ nb.author = "A" ∧ nb.genre = "G" ∧ nb.book_id = "1" ∧
      nb.is_borrowed = false ∧ nb.borrow_history = [] ∧
      nb.rating = 0 ∧ nb.num_ratings = 0 := by
  refine ⟨Or.inl rfl,
    (C5_add_book [mkBook "B" "C" "D" "2"] "" "A" "G" "1").1 (Or.inl rfl),
    ((C5_add_book [mkBook "B" "C" "D" "2"] "T" "A" "G" "2").2.1 (by simp) (by simp [mkBook])).1,
    ?_, ?_⟩
  · exact ((C5_add_book [mkBook "B" "C" "D" "2"] "T" "A" "G" "1").2.2 (by simp) (by simp [mkBook])).1
  · exact ((C5_add_book [mkBook "B" "C" "D" "2"] "T" "A" "G" "1").2.2 (by simp) (by simp [mkBook])).2

end Library

/-- Claim C6: serializing a book with `to_dict` and reading it back with
`from_dict` reproduces the book field-for-field (including empty histories and
zero ratings, which are just particular field values), and `from_dict` defaults
`rating` and `num_ratings` to `0` when those keys are absent. -/
theorem C6_roundtrip (b : Book) (d : BookDict) :
    Book.from_dict (Book.to_dict b) = b ∧
    (d.rating = none → d.num_ratings = none →
      Book.from_dict d
        = { title := d.title, author := d.author, genre := d.genre,
            book_id := d.book_id, is_borrowed := d.is_borrowed,
            borrow_history := d.borrow_history,
            rating := 0, num_ratings := 0 }) := by
  constructor
  · rfl
  · intro h1 h2
    simp [Book.from_dict, h1, h2]

/-- Witness for C6: a round trip on a concrete borrowed, rated book with a
nonempty history, and the defaulting on a dictionary missing both rating keys. -/
theorem C6_roundtrip_witness :
    Book.from_dict
        (Book.to_dict
          { mkBook "T" "A" "G" "1" with
            is_borrowed := true,
            borrow_history := [⟨"u1", "d1", some "d2"⟩, ⟨"u2", "d3", none⟩],
            rating := 7/2, num_ratings := 2 })
      = { mkBook "T" "A" "G" "1" with
          is_borrowed := true,
          borrow_history := [⟨"u1", "d1", some "d2"⟩, ⟨"u2", "d3", none⟩],
          rating := 7/2, num_ratings := 2 } ∧
    ((⟨"T", "A", "G", "1", false, [], none, none⟩ : BookDict).rating = none ∧
      Book.from_dict ⟨"T", "A", "G", "1", false, [], none, none⟩
        = { title := "T", author := "A", genre := "G", book_id := "1",
            is_borrowed := false, borrow_history := [],
            rating := 0, num_ratings := 0 }) :=
  ⟨(C6_roundtrip _ ⟨"T", "A", "G", "1", false, [], none, none⟩).1,
   rfl, (C6_roundtrip (mkBook "T" "A" "G" "1") _).2 rfl rfl⟩

namespace Library

/-- An empty needle is a substring of everything, as in Python. -/
theorem containsSubstr_nil : ∀ hay : List Char, containsSubstr hay [] = true
  | [] => rfl
  | _ :: _ => by simp [containsSubstr, prefixOfChars]

/-- With the empty search term every book matches, whatever the field. -/
theorem matchBook_nil (ty : String) (b : Book) : matchBook [] ty b = true := by
  unfold matchBook
  split_ifs <;> simp [containsSubstr_nil]

instance searchRel_total : IsTotal Book searchRel :=
  ⟨fun a b => le_total (searchKey a) (searchKey b)⟩

instance searchRel_trans : IsTrans Book searchRel :=
  ⟨fun _ _ _ h1 h2 => le_trans h1 h2⟩

/-- Ordering the claims speak about: `x` ranks no later than `y` when `x` has
the larger rating, or equal ratings and a title that is no larger. -/
def rankedBefore (x y : Book) : Prop :=
  y.rating < x.rating ∨ (x.rating = y.rating ∧ x.title ≤ y.title)

/-- The comparison on the Python sort key `(-rating, title)` is exactly
descending rating with ascending-title tie-break. -/
theorem searchRel_iff_rankedBefore (x y : Book) :
    searchRel x y ↔ rankedBefore x y := by
  unfold searchRel searchKey rankedBefore
  rw [Prod.Lex.le_iff]
  simp [neg_lt_neg_iff, neg_inj]

/-- The output of `search_books` is sorted by descending rating, ties broken
by ascending title. -/
theorem search_books_sorted (books : List Book) (term ty : String) :
    (search_books books term ty).Sorted rankedBefore := by
  unfold search_books
  exact (List.sorted_insertionSort searchRel _).imp
    (fun h => (searchRel_iff_rankedBefore _ _).mp h)

/-- Claim C7: `search(term, field)` returns exactly the books whose selected
field (all three fields for `field = all`) contains the lower-cased term as a
substring of its lower-cased value, ordered by descending rating then
ascending title; when nothing matches, the result is empty. -/
theorem C7_search_books (books : List Book) (term ty : String) :
    (ty = "title" → ∀ b, b ∈ search_books books term ty ↔
      b ∈ books ∧ containsSubstr (lowerChars b.title) (lowerChars term) = true) ∧
    (ty = "author" → ∀ b, b ∈ search_books books term ty ↔
      b ∈ books ∧ containsSubstr (lowerChars b.author) (lowerChars term) = true) ∧
    (ty = "genre" → ∀ b, b ∈ search_books books term ty ↔
      b ∈ books ∧ containsSubstr (lowerChars b.genre) (lowerChars term) = true) ∧
    (ty = "all" → ∀ b, b ∈ search_books books term ty ↔
      b ∈ books ∧
        (containsSubstr (lowerChars b.title) (lowerChars term) = true ∨
         containsSubstr (lowerChars b.author) (lowerChars term) = true ∨
         containsSubstr (lowerChars b.genre) (lowerChars term) = true)) ∧
    (search_books books term ty).Sorted rankedBefore ∧
    ((∀ b ∈ books, matchBook (lowerChars term) ty b = false) →
      search_books books term ty = []) := by
  have hmem : ∀ b, b ∈ search_books books term ty ↔
      b ∈ books ∧ matchBook (lowerChars term) ty b = true := by
    intro b
    unfold search_books
    rw [List.mem_insertionSort, List.mem_filter]
  refine ⟨fun hty => ?_, fun hty => ?_, fun hty => ?_, fun hty => ?_,
    search_books_sorted books term ty, fun hnone => ?_⟩
  · intro b; rw [hmem b]; subst hty; simp [matchBook]
  · intro b; rw [hmem b]; subst hty; simp [matchBook]
  · intro b; rw [hmem b]; subst hty; simp [matchBook]
  · intro b; rw [hmem b]; subst hty; simp [matchBook, or_assoc]
  · unfold search_books
    rw [List.filter_eq_nil_iff.mpr (by simpa using hnone)]
    rfl

/-- Witness for C7: the catalog `["Dune" by Herbert]` is found by the
case-insensitive title search for "DUNE", and a title search for "zzz" returns
the empty list. -/
theorem C7_search_books_witness :
    ("title" : String) = "title" ∧
    (mkBook "Dune" "Herbert" "Sci-Fi" "1"
        ∈ search_books [mkBook "Dune" "Herbert" "Sci-Fi" "1"] "DUNE" "title") ∧
    search_books [mkBook "Dune" "Herbert" "Sci-Fi" "1"] "zzz" "title" = [] :=
  ⟨rfl,
   ((C7_search_books [mkBook "Dune" "Herbert" "Sci-Fi" "1"] "DUNE" "title").1 rfl
      (mkBook "Dune" "Herbert" "Sci-Fi" "1")).mpr (by decide),
   (C7_search_books [mkBook "Dune" "Herbert" "Sci-Fi" "1"] "zzz" "title").2.2.2.2.2
      (by decide)⟩

/-- Claim C9: searching with the empty term returns the whole catalog (as a
permutation, ordered by descending rating then ascending title), for every
field choice, because the empty string is a substring of every value. -/
theorem C9_search_empty_term (books : List Book) (ty : String) :
    (search_books books "" ty).Perm books ∧
    (search_books books "" ty).Sorted rankedBefore := by
  constructor
  · unfold search_books
    have : books.filter (matchBook (lowerChars "") ty) = books :=
      List.filter_eq_self.mpr (fun b _ => matchBook_nil ty b)
    rw [show lowerChars "" = [] from rfl] at this ⊢
    rw [this]
    exact List.perm_insertionSort searchRel books
  · exact search_books_sorted books "" ty

end Library

namespace Library

/-- Genre counter of the statistics fold: each book of genre `g` adds one. -/
theorem stats_genres (l : List Book) (init : Stats) (g : String) :
    (l.foldl statsStep init).genres g
      = init.genres g + (l.filter (fun b => b.genre = g)).length := by
  induction l generalizing init with
  | nil => simp
  | cons b rest ih =>
    rw [List.foldl_cons, ih]
    by_cases h : g = b.genre
    · simp [statsStep, List.filter_cons, h]
      omega
    · have h' : ¬ b.genre = g := fun hh => h hh.symm
      simp [statsStep, List.filter_cons, h, h']

/-- Author counter of the statistics fold. -/
theorem stats_authors (l : List Book) (init : Stats) (a : String) :
    (l.foldl statsStep init).authors a
      = init.authors a + (l.filter (fun b => b.author = a)).length := by
  induction l generalizing init with
  | nil => simp
  | cons b rest ih =>
    rw [List.foldl_cons, ih]
    by_cases h : a = b.author
    · simp [statsStep, List.filter_cons, h]
      omega
    · have h' : ¬ b.author = a := fun hh => h hh.symm
      simp [statsStep, List.filter_cons, h, h']

/-- Rating lists of the statistics fold: the averages of the rated books of
the genre, in catalog order. -/
theorem stats_ratings (l : List Book) (init : Stats) (g : String) :
    (l.foldl statsStep init).ratings g
      = init.ratings g
        ++ (l.filter (fun b => b.genre = g ∧ 0 < b.num_ratings)).map Book.rating := by
  induction l generalizing init with
  | nil => simp
  | cons b rest ih =>
    rw [List.foldl_cons, ih]
    by_cases h : g = b.genre ∧ 0 < b.num_ratings
    · obtain ⟨hg, hn⟩ := h
      subst hg
      simp [statsStep, List.filter_cons, hn]
    · have h' : ¬(b.genre = g ∧ 0 < b.num_ratings) := fun hh => h ⟨hh.1.symm, hh.2⟩
      simp [statsStep, List.filter_cons, h, h']

/-- Borrow-frequency map of the statistics fold: the value at a title is the
history length of the last book processed with that title (each book
overwrites the entry for its title). -/
theorem stats_freq (l : List Book) (init : Stats) (t : String) :
    (l.foldl statsStep init).borrow_frequency t
      = ((l.filter (fun b => b.title = t)).map
          (fun b => b.borrow_history.length)).getLastD (init.borrow_frequency t) := by
  induction l generalizing init with
  | nil => simp
  | cons b rest ih =>
    rw [List.foldl_cons, ih]
    by_cases h : t = b.title
    · subst h
      rw [List.filter_cons_of_pos (by simp), List.map_cons, List.getLastD_cons]
      congr 1
      simp [statsStep]
    · have h' : ¬ b.title = t := fun hh => h hh.symm
      simp [statsStep, List.filter_cons, h, h']

/-- When no two books share a title, the only book filtered by a member's
title is that member. -/
theorem filter_title_eq : ∀ (books : List Book), (books.map Book.title).Nodup →
    ∀ b ∈ books, books.filter (fun x => x.title = b.title) = [b]
  | [], _, b, hb => absurd hb (List.not_mem_nil b)
  | c :: rest, hnodup, b, hb => by
    rw [List.map_cons, List.nodup_cons] at hnodup
    rcases List.mem_cons.mp hb with rfl | hbr
    · rw [List.filter_cons_of_pos (by simp)]
      rw [List.filter_eq_nil_iff.mpr ?_]
      intro x hx
      simp only [decide_eq_true_eq]
      intro hxc
      exact hnodup.1 (hxc ▸ List.mem_map_of_mem Book.title hx)
    · rw [List.filter_cons_of_neg ?_, filter_title_eq rest hnodup.2 b hbr]
      simp only [decide_eq_true_eq]
      intro hcb
      exact hnodup.1 (hcb ▸ List.mem_map_of_mem Book.title hbr)

/-- Claim C2 (amended): one pass of `generate_statistics` yields per-genre and
per-author record counts (the genre counts summing to the catalog size), the
per-genre lists of rating averages of books with at least one rating, and a
title-keyed borrow-frequency map whose value at a title is the history length
of the LAST record with that title; when titles are pairwise distinct this is
each record's own history length. -/
theorem C2_generate_statistics (books : List Book) :
    (∀ g, (generate_statistics books).genres g
        = (books.filter (fun b => b.genre = g)).length) ∧
    (∑ g in (books.map Book.genre).toFinset, (generate_statistics books).genres g
        = books.length) ∧
    (∀ a, (generate_statistics books).authors a
        = (books.filter (fun b => b.author = a)).length) ∧
    (∀ g, (generate_statistics books).ratings g
        = (books.filter (fun b => b.genre = g ∧ 0 < b.num_ratings)).map Book.rating) ∧
    (∀ t, (generate_statistics books).borrow_frequency t
        = ((books.filter (fun b => b.title = t)).map
            (fun b => b.borrow_history.length)).getLastD 0) ∧
    ((books.map Book.title).Nodup →
      ∀ b ∈ books, (generate_statistics books).borrow_frequency b.title
        = b.borrow_history.length) := by
  have hg : ∀ g, (generate_statistics books).genres g
      = (books.filter (fun b => b.genre = g)).length := by
    intro g
    rw [generate_statistics, stats_genres]
    simp [emptyStats]
  have hf : ∀ t, (generate_statistics books).borrow_frequency t
      = ((books.filter (fun b => b.title = t)).map
          (fun b => b.borrow_history.length)).getLastD 0 := by
    intro t
    rw [generate_statistics, stats_freq]
    rfl
  refine ⟨hg, ?_, ?_, ?_, hf, ?_⟩
  · have hcount : ∀ g, (books.filter (fun b => b.genre = g)).length
        = (books.map Book.genre).count g := by
      intro g
      rw [List.count, List.countP_map]
      rw [List.countP_eq_length_filter]
      congr 1
    calc ∑ g in (books.map Book.genre).toFinset, (generate_statistics books).genres g
        = ∑ g in (books.map Book.genre).toFinset, (books.map Book.genre).count g := by
          refine Finset.sum_congr rfl fun g _ => ?_
          rw [hg g, hcount g]
      _ = (books.map Book.genre).length := List.sum_toFinset_count_eq_length _
      _ = books.length := List.length_map books Book.genre
  · intro a
    rw [generate_statistics, stats_authors]
    simp [emptyStats]
  · intro g
    rw [generate_statistics, stats_ratings]
    rfl
  · intro hnodup b hb
    rw [hf b.title, filter_title_eq books hnodup b hb]
    rfl

/-- Counterexample to claim C2 as stated: with two records sharing the title
"X" (ids are distinct, titles need not be), the title-keyed borrow-frequency
entry is overwritten by the later record, so the first record's entry (history
length 0) reads back as the second record's history length 1. -/
theorem C2_counterexample :
    ¬ (∀ b ∈ [mkBook "X" "A1" "G1" "1",
              { mkBook "X" "A2" "G2" "2" with
                borrow_history := [⟨"u", "d", none⟩] }],
        (generate_statistics
            [mkBook "X" "A1" "G1" "1",
             { mkBook "X" "A2" "G2" "2" with
               borrow_history := [⟨"u", "d", none⟩] }]).borrow_frequency b.title
          = b.borrow_history.length) := by
  intro h
  have h1 := h (mkBook "X" "A1" "G1" "1") (by simp)
  simp [generate_statistics, statsStep, emptyStats, mkBook] at h1

end Library

namespace Library

/-- Claim C1 (amended): provided the kept candidates have pairwise-distinct
scores — so that the tuple sort never compares two `Book` objects — the
recommendation call succeeds and returns at most 5 books, each an unborrowed
catalog book of positive score, in descending score order, and every kept
candidate left out only loses to 5 books of at least its score. -/
theorem C1_generate_recommendations (books : List Book) (uid : String)
    (h : (recCandidates books uid).Pairwise
      (fun a b => recScore books uid a ≠ recScore books uid b)) :
    ∃ l, generate_recommendations books uid = some l ∧
      l.length ≤ 5 ∧
      (∀ b ∈ l, b ∈ books ∧ b.is_borrowed = false ∧ 0 < recScore books uid b) ∧
      l.Pairwise (fun x y => recScore books uid y ≤ recScore books uid x) ∧
      (∀ b ∈ books, b.is_borrowed = false → 0 < recScore books uid b → b ∉ l →
        (l.length = 5 ∧ ∀ x ∈ l, recScore books uid b ≤ recScore books uid x)) := by
  haveI htot : IsTotal Book (fun x y => recScore books uid y ≤ recScore books uid x) :=
    ⟨fun a b => le_total _ _⟩
  haveI htrans : IsTrans Book (fun x y => recScore books uid y ≤ recScore books uid x) :=
    ⟨fun _ _ _ hab hbc => le_trans hbc hab⟩
  have hsorted := List.sorted_insertionSort
    (fun x y => recScore books uid y ≤ recScore books uid x) (recCandidates books uid)
  set s := List.insertionSort
    (fun x y => recScore books uid y ≤ recScore books uid x) (recCandidates books uid) with hs
  have hmem_cand : ∀ b, b ∈ recCandidates books uid ↔
      b ∈ books ∧ b.is_borrowed = false ∧ 0 < recScore books uid b := by
    intro b
    unfold recCandidates
    rw [List.mem_filter]
    simp
  refine ⟨s.take 5, ?_, ?_, ?_, ?_, ?_⟩
  · rw [generate_recommendations, if_pos h]
  · rw [List.length_take]
    omega
  · intro b hb
    exact (hmem_cand b).mp ((List.mem_insertionSort _).mp (List.take_subset 5 s hb))
  · exact hsorted.sublist (List.take_sublist 5 s)
  · intro b hb hnb hsc hbl
    have hbs : b ∈ s := (List.mem_insertionSort _).mpr ((hmem_cand b).mpr ⟨hb, hnb, hsc⟩)
    have hbdrop : b ∈ s.drop 5 := by
      rcases List.mem_append.mp ((List.take_append_drop 5 s) ▸ hbs) with hx | hx
      · exact absurd hx hbl
      · exact hx
    have hlen : 5 < s.length := by
      by_contra hle
      rw [List.drop_eq_nil_iff.mpr (by omega)] at hbdrop
      exact absurd hbdrop (List.not_mem_nil b)
    constructor
    · rw [List.length_take]
      omega
    · intro x hx
      exact hsorted.rel_of_mem_take_of_mem_drop hx hbdrop

/-- Witness for C1: two unborrowed rated books with distinct scores (4 and 2)
are both kept, the call succeeds, and returns at most 5 books. -/
theorem C1_generate_recommendations_witness :
    (recCandidates [{ mkBook "A" "H1" "S1" "1" with rating := 4 },
                    { mkBook "B" "H2" "S2" "2" with rating := 2 }] "u1").Pairwise
      (fun a b =>
        recScore [{ mkBook "A" "H1" "S1" "1" with rating := 4 },
                  { mkBook "B" "H2" "S2" "2" with rating := 2 }] "u1" a
          ≠ recScore [{ mkBook "A" "H1" "S1" "1" with rating := 4 },
                      { mkBook "B" "H2" "S2" "2" with rating := 2 }] "u1" b) ∧
    ∃ l, generate_recommendations
        [{ mkBook "A" "H1" "S1" "1" with rating := 4 },
         { mkBook "B" "H2" "S2" "2" with rating := 2 }] "u1" = some l ∧
      l.length ≤ 5 := by
  have hp : (recCandidates [{ mkBook "A" "H1" "S1" "1" with rating := 4 },
                    { mkBook "B" "H2" "S2" "2" with rating := 2 }] "u1").Pairwise
      (fun a b =>
        recScore [{ mkBook "A" "H1" "S1" "1" with rating := 4 },
                  { mkBook "B" "H2" "S2" "2" with rating := 2 }] "u1" a
          ≠ recScore [{ mkBook "A" "H1" "S1" "1" with rating := 4 },
                      { mkBook "B" "H2" "S2" "2" with rating := 2 }] "u1" b) := by
    simp [recCandidates, recScore, userGenreCount, userAuthorCount, mkBook]
  obtain ⟨l, h1, h2, -⟩ := C1_generate_recommendations _ "u1" hp
  exact ⟨hp, l, h1, h2⟩

/-- Counterexample to claim C1 as stated: two unborrowed books with equal
positive scores (rating 1 each, no history) are both candidates, yet the call
produces no list at all — Python's `sorted` compares the two `(score, book)`
tuples, falls through to `Book < Book`, and raises `TypeError` — instead of
returning them in encounter order. -/
theorem C1_counterexample :
    recCandidates [{ mkBook "A" "H1" "S1" "1" with rating := 1 },
                   { mkBook "B" "H2" "S2" "2" with rating := 1 }] "u1"
      = [{ mkBook "A" "H1" "S1" "1" with rating := 1 },
         { mkBook "B" "H2" "S2" "2" with rating := 1 }] ∧
    generate_recommendations
      [{ mkBook "A" "H1" "S1" "1" with rating := 1 },
       { mkBook "B" "H2" "S2" "2" with rating := 1 }] "u1" = none := by
  constructor
  · simp [recCandidates, recScore, userGenreCount, userAuthorCount, mkBook]
  · simp [generate_recommendations, recCandidates, recScore,
      userGenreCount, userAuthorCount, mkBook]

end Library

namespace Library

/-- One `add_rating` call keeps the rating state invariant: an accepted value
lies in `[1,5]` and the new running mean of values in `[1,5]` stays there. -/
theorem ratingStateOk_add_rating (b : Book) (v : ℚ) (h : ratingStateOk b) :
    ratingStateOk (b.add_rating v) := by
  unfold Book.add_rating
  split_ifs with hv
  · right
    refine ⟨Nat.succ_pos _, ?_, ?_⟩
    · show 1 ≤ (b.rating * b.num_ratings + v) / (b.num_ratings + 1)
      have hpos : (0:ℚ) < (b.num_ratings : ℚ) + 1 := by positivity
      rw [le_div_iff₀ hpos]
      rcases h with ⟨hn, hr⟩ | ⟨hn, hr1, hr5⟩
      · rw [hn, hr]
        push_cast
        linarith [hv.1]
      · have hcast : (1:ℚ) ≤ (b.num_ratings : ℚ) := by exact_mod_cast hn
        nlinarith [hv.1,
          mul_le_mul_of_nonneg_right hr1 (by positivity : (0:ℚ) ≤ (b.num_ratings : ℚ))]
    · show (b.rating * b.num_ratings + v) / (b.num_ratings + 1) ≤ 5
      have hpos : (0:ℚ) < (b.num_ratings : ℚ) + 1 := by positivity
      rw [div_le_iff₀ hpos]
      rcases h with ⟨hn, hr⟩ | ⟨hn, hr1, hr5⟩
      · rw [hn, hr]
        push_cast
        linarith [hv.2]
      · have hcast : (1:ℚ) ≤ (b.num_ratings : ℚ) := by exact_mod_cast hn
        nlinarith [hv.2,
          mul_le_mul_of_nonneg_right hr5 (by positivity : (0:ℚ) ≤ (b.num_ratings : ℚ))]
  · exact h

/-- The rating state invariant holds along any sequence of ratings applied to
a book that satisfies it. -/
theorem ratingStateOk_applyRatings :
    ∀ (vs : List ℚ) (b : Book), ratingStateOk b → ratingStateOk (applyRatings b vs)
  | [], _, hb => hb
  | v :: rest, b, hb =>
    ratingStateOk_applyRatings rest (b.add_rating v) (ratingStateOk_add_rating b v hb)

/-- Claim C10: a fresh record rated only through `add_rating` has, as soon as
`num_ratings > 0`, an average in `[1,5]` — a strictly tighter lower bound than
the `[0,5]` range, since every accepted rating is at least `1` and the running
mean of values in `[1,5]` stays in `[1,5]`. -/
theorem C10_rating_bounds (t a g i : String) (vs : List ℚ)
    (h : 0 < (applyRatings (mkBook t a g i) vs).num_ratings) :
    1 ≤ (applyRatings (mkBook t a g i) vs).rating ∧
    (applyRatings (mkBook t a g i) vs).rating ≤ 5 := by
  have hok := ratingStateOk_applyRatings vs (mkBook t a g i) (Or.inl ⟨rfl, rfl⟩)
  rcases hok with ⟨hn, _⟩ | ⟨_, h1, h5⟩
  · exact absurd h (by omega)
  · exact ⟨h1, h5⟩

/-- Witness for C10: a single rating 3 on a fresh record. -/
theorem C10_rating_bounds_witness :
    0 < (applyRatings (mkBook "T" "A" "G" "1") [3]).num_ratings ∧
    1 ≤ (applyRatings (mkBook "T" "A" "G" "1") [3]).rating ∧
    (applyRatings (mkBook "T" "A" "G" "1") [3]).rating ≤ 5 := by
  have h : 0 < (applyRatings (mkBook "T" "A" "G" "1") [3]).num_ratings := by
    norm_num [applyRatings, Book.add_rating, mkBook]
  exact ⟨h, C10_rating_bounds "T" "A" "G" "1" [3] h⟩

/-- In a book satisfying the history invariant that is not borrowed, every
history entry is closed. -/
theorem closed_of_not_borrowed (b : Book) (hb : histAux b)
    (h : b.is_borrowed = false) :
    ∀ e ∈ b.borrow_history, e.return_date ≠ none := by
  intro e he
  by_cases hnil : b.borrow_history = []
  · rw [hnil] at he
    exact absurd he (List.not_mem_nil e)
  · rw [← List.dropLast_append_getLast hnil] at he
    rcases List.mem_append.mp he with hd | hl
    · exact hb.1 e hd
    · have heqe : e = b.borrow_history.getLast hnil := by simpa using hl
      have he' : b.borrow_history.getLast? = some e := by
        rw [heqe]
        exact List.getLast?_eq_getLast _ hnil
      intro hopen
      have hiff := (hb.2.1 e he').mp hopen
      rw [h] at hiff
      exact Bool.false_ne_true hiff

/-- `borrow` keeps the history invariant. -/
theorem histAux_borrow (b : Book) (uid ts : String) (hb : histAux b) :
    histAux (Book.borrow b uid ts).1 := by
  unfold Book.borrow
  split_ifs with h
  · have hnb : b.is_borrowed = false := by simpa using h
    refine ⟨?_, ?_, ?_⟩
    · intro e he
      rw [List.dropLast_concat] at he
      exact closed_of_not_borrowed b hb hnb e he
    · intro e he
      rw [List.getLast?_concat] at he
      obtain rfl := Option.some.inj he.symm
      simp
    · intro hemp
      exact absurd hemp (by simp)
  · exact hb

/-- `return_book` keeps the history invariant. -/
theorem histAux_return (b : Book) (ts : String) (hb : histAux b) :
    histAux (Book.return_book b ts).1 := by
  unfold Book.return_book
  split_ifs with h
  · by_cases hnil : b.borrow_history = []
    · rw [hb.2.2 hnil] at h
      exact absurd h Bool.false_ne_true
    · have hlast := List.getLast?_eq_getLast _ hnil
      have heq := closeLast_eq ts b.borrow_history (b.borrow_history.getLast hnil) hlast
      refine ⟨?_, ?_, ?_⟩
      · intro e he
        rw [heq, List.dropLast_concat] at he
        exact hb.1 e he
      · intro e he
        rw [heq, List.getLast?_concat] at he
        obtain rfl := Option.some.inj he.symm
        simp
      · intro _
        rfl
  · exact hb

end Library

namespace Library

/-- Updating the first id-match does not change the id sequence when the
update preserves the id. -/
theorem updateFirstBook_map_book_id (f : Book → Book) (i : String)
    (hf : ∀ b, (f b).book_id = b.book_id) :
    ∀ books : List Book,
      (updateFirstBook f i books).map Book.book_id = books.map Book.book_id
  | [] => rfl
  | b :: rest => by
    unfold updateFirstBook
    split_ifs with h
    · simp [hf b]
    · simp [updateFirstBook_map_book_id f i hf rest]

/-- Every element of the updated list is an old element or the image of one. -/
theorem updateFirstBook_mem (f : Book → Book) (i : String) :
    ∀ (books : List Book) (x : Book), x ∈ updateFirstBook f i books →
      x ∈ books ∨ ∃ b ∈ books, x = f b
  | [], x, hx => absurd hx (List.not_mem_nil x)
  | b :: rest, x, hx => by
    unfold updateFirstBook at hx
    split_ifs at hx with h
    · rcases List.mem_cons.mp hx with rfl | hr
      · exact Or.inr ⟨b, List.mem_cons_self b rest, rfl⟩
      · exact Or.inl (List.mem_cons_of_mem b hr)
    · rcases List.mem_cons.mp hx with rfl | hr
      · exact Or.inl (List.mem_cons_self x rest)
      · rcases updateFirstBook_mem f i rest x hr with h1 | ⟨c, hc, rfl⟩
        · exact Or.inl (List.mem_cons_of_mem b h1)
        · exact Or.inr ⟨c, List.mem_cons_of_mem b hc, rfl⟩

/-- `borrow` does not change the id. -/
theorem borrow_book_id (b : Book) (uid ts : String) :
    (Book.borrow b uid ts).1.book_id = b.book_id := by
  unfold Book.borrow
  split_ifs <;> rfl

/-- `return_book` does not change the id. -/
theorem return_book_id (b : Book) (ts : String) :
    (Book.return_book b ts).1.book_id = b.book_id := by
  unfold Book.return_book
  split_ifs <;> rfl

/-- `add_rating` does not change the id. -/
theorem add_rating_book_id (b : Book) (v : ℚ) :
    (Book.add_rating b v).book_id = b.book_id := by
  unfold Book.add_rating
  split_ifs <;> rfl

/-- `borrow` keeps the per-book invariant. -/
theorem BookAux_borrow (b : Book) (uid ts : String) (hb : BookAux b) :
    BookAux (Book.borrow b uid ts).1 := by
  refine ⟨?_, histAux_borrow b uid ts hb.2⟩
  have hr := hb.1
  unfold Book.borrow
  split_ifs <;> exact hr

/-- `return_book` keeps the per-book invariant. -/
theorem BookAux_return (b : Book) (ts : String) (hb : BookAux b) :
    BookAux (Book.return_book b ts).1 := by
  refine ⟨?_, histAux_return b ts hb.2⟩
  have hr := hb.1
  unfold Book.return_book
  split_ifs <;> exact hr

/-- `add_rating` keeps the per-book invariant. -/
theorem BookAux_add_rating (b : Book) (v : ℚ) (hb : BookAux b) :
    BookAux (Book.add_rating b v) := by
  refine ⟨ratingStateOk_add_rating b v hb.1, ?_⟩
  have hh := hb.2
  unfold Book.add_rating
  split_ifs <;> exact hh

/-- A fresh book satisfies the per-book invariant. -/
theorem BookAux_mkBook (t a g i : String) : BookAux (mkBook t a g i) := by
  refine ⟨Or.inl ⟨rfl, rfl⟩, ?_, ?_, ?_⟩
  · intro e he
    exact absurd he (List.not_mem_nil e)
  · intro e he
    exact absurd he (by simp [mkBook])
  · intro _
    rfl

/-- An in-place update through `find_book` keeps the library invariant when
the per-book operation keeps ids and the per-book invariant. -/
theorem StoreAux_updateFirstBook (f : Book → Book) (i : String)
    (hf_id : ∀ b, (f b).book_id = b.book_id)
    (hf_aux : ∀ b, BookAux b → BookAux (f b))
    (books : List Book) (h : StoreAux books) :
    StoreAux (updateFirstBook f i books) := by
  constructor
  · rw [updateFirstBook_map_book_id f i hf_id books]
    exact h.1
  · intro x hx
    rcases updateFirstBook_mem f i books x hx with hx' | ⟨b, hb, rfl⟩
    · exact h.2 x hx'
    · exact hf_aux b (h.2 b hb)

/-- `add_book` keeps the library invariant. -/
theorem StoreAux_add_book (books : List Book) (t a g i : String)
    (h : StoreAux books) : StoreAux (add_book books t a g i).1 := by
  unfold add_book
  split_ifs with h1 h2
  · exact h
  · exact h
  · constructor
    · rw [List.map_append, List.nodup_append]
      refine ⟨h.1, by simp, ?_⟩
      intro x hx hx'
      have hxi : x = i := by simpa [mkBook] using hx'
      subst hxi
      obtain ⟨b, hb, hbi⟩ := List.mem_map.mp hx
      exact h2 (List.any_eq_true.mpr ⟨b, hb, by simp [hbi]⟩)
    · intro x hx
      rcases List.mem_append.mp hx with hx' | hx'
      · exact h.2 x hx'
      · have hxm : x = mkBook t a g i := by simpa using hx'
        subst hxm
        exact BookAux_mkBook t a g i

/-- Every reachable library state satisfies the inductive invariant. -/
theorem reachable_storeAux (books : List Book) (h : Reachable books) :
    StoreAux books := by
  induction h with
  | empty =>
    exact ⟨List.nodup_nil, fun b hb => absurd hb (List.not_mem_nil b)⟩
  | add books t a g i _ ih => exact StoreAux_add_book books t a g i ih
  | borrow books i uid ts _ ih =>
    exact StoreAux_updateFirstBook _ i (fun b => borrow_book_id b uid ts)
      (fun b hb => BookAux_borrow b uid ts hb) books ih
  | ret books i ts _ ih =>
    exact StoreAux_updateFirstBook _ i (fun b => return_book_id b ts)
      (fun b hb => BookAux_return b ts hb) books ih
  | rate books i v _ ih =>
    exact StoreAux_updateFirstBook _ i (fun b => add_rating_book_id b v)
      (fun b hb => BookAux_add_rating b v hb) books ih

/-- A book satisfying the history invariant has at most one open entry. -/
theorem openCount_le_one (b : Book) (hb : histAux b) :
    b.borrow_history.countP (fun e => e.return_date == none) ≤ 1 := by
  by_cases hnil : b.borrow_history = []
  · simp [hnil]
  · conv_lhs => rw [← List.dropLast_append_getLast hnil]
    rw [List.countP_append]
    have h0 : b.borrow_history.dropLast.countP (fun e => e.return_date == none) = 0 := by
      rw [List.countP_eq_zero]
      intro e he
      simpa using hb.1 e he
    have h1 : List.countP (fun e => e.return_date == none)
        [b.borrow_history.getLast hnil] ≤ 1 := by
      rw [List.countP_cons, List.countP_nil]
      split_ifs <;> omega
    omega

/-- Claim C8: on every library state reachable from the empty library by the
core operations, ids are unique across the store, the rating average is in
`[0,5]` once the count is positive and exactly `0` otherwise, the last
borrow-history entry is open exactly when the book is borrowed, and at most
one history entry is open. -/
theorem C8_invariants (books : List Book) (h : Reachable books) :
    (books.map Book.book_id).Nodup ∧
    ∀ b ∈ books,
      (0 < b.num_ratings → 0 ≤ b.rating ∧ b.rating ≤ 5) ∧
      (b.num_ratings = 0 → b.rating = 0) ∧
      (∀ e, b.borrow_history.getLast? = some e →
        (e.return_date = none ↔ b.is_borrowed = true)) ∧
      b.borrow_history.countP (fun e => e.return_date == none) ≤ 1 := by
  have hs := reachable_storeAux books h
  refine ⟨hs.1, fun b hb => ?_⟩
  obtain ⟨hr, hh⟩ := hs.2 b hb
  refine ⟨?_, ?_, fun e he => hh.2.1 e he, openCount_le_one b hh⟩
  · intro hn
    rcases hr with ⟨h0, _⟩ | ⟨_, h1, h5⟩
    · omega
    · exact ⟨le_trans (by norm_num) h1, h5⟩
  · intro hn
    rcases hr with ⟨_, h0⟩ | ⟨hpos, _, _⟩
    · exact h0
    · omega

/-- Witness for C8: the state reached by adding one book and borrowing it. -/
theorem C8_invariants_witness :
    Reachable (updateFirstBook (fun b => (Book.borrow b "u1" "d1").1) "1"
      (add_book [] "T" "A" "G" "1").1) ∧
    ((updateFirstBook (fun b => (Book.borrow b "u1" "d1").1) "1"
        (add_book [] "T" "A" "G" "1").1).map Book.book_id).Nodup ∧
    ∀ b ∈ updateFirstBook (fun b => (Book.borrow b "u1" "d1").1) "1"
        (add_book [] "T" "A" "G" "1").1,
      (0 < b.num_ratings → 0 ≤ b.rating ∧ b.rating ≤ 5) ∧
      (b.num_ratings = 0 → b.rating = 0) ∧
      (∀ e, b.borrow_history.getLast? = some e →
        (e.return_date = none ↔ b.is_borrowed = true)) ∧
      b.borrow_history.countP (fun e => e.return_date == none) ≤ 1 := by
  have hr : Reachable (updateFirstBook (fun b => (Book.borrow b "u1" "d1").1) "1"
      (add_book [] "T" "A" "G" "1").1) :=
    Reachable.borrow _ "1" "u1" "d1" (Reachable.add [] "T" "A" "G" "1" Reachable.empty)
  obtain ⟨h1, h2⟩ := C8_invariants _ hr
  exact ⟨hr, h1, h2⟩

end Library
